import Mathlib

/-
Verification development for the italian_finance_talk fetch pipeline
(fetch_data.py and async_ckan.py).

The async pipeline is embedded as pure state-passing functions:
  - the filesystem is an explicit map from paths to file data;
  - every network interaction is a parameter (a function from attempt
    index to the outcome of that attempt), so retries are observable;
  - asyncio.gather over independent tasks is modelled as a sequential
    fold, which is adequate for the per-file outcome properties proved
    here;
  - json.dumps / json.loads on package and group documents are modelled
    as the constructors and projections of a FileData sum (the byte-level
    JSON encoding is irrelevant to every property below, only the
    round-trip of the document matters);
  - Python str.replace, str.startswith, str.split and pathlib joining
    are re-implemented character by character so their corner cases
    (replace rewrites every occurrence, pathlib drops empty segments)
    are captured faithfully.
-/

namespace ItalianFinance

/-! ## Python-faithful string helpers -/

/-- Model of Python str.startswith, char by char. -/
def startsWithChars : List Char → List Char → Bool
  | [], _ => true
  | _ :: _, [] => false
  | p :: ps, c :: cs => p == c && startsWithChars ps cs

/-- Model of Python s.startswith(pre). -/
def pyStartsWith (s pre : String) : Bool :=
  startsWithChars pre.data s.data

/-- Model of Python str.replace with a nonempty pattern p :: ps:
    rewrites every non-overlapping occurrence, scanning left to right. -/
def replaceAll (p : Char) (ps rep : List Char) : List Char → List Char
  | [] => []
  | c :: cs =>
    if startsWithChars (p :: ps) (c :: cs) then
      rep ++ replaceAll p ps rep (cs.drop ps.length)
    else
      c :: replaceAll p ps rep cs
termination_by s => s.length
decreasing_by
  · simp only [List.length_cons, List.length_drop]
    omega
  · simp only [List.length_cons]
    omega

/-- Fuel-indexed version of replaceAll, structurally recursive so that
    concrete instances evaluate inside the kernel; it agrees with
    replaceAll whenever the fuel bounds the input length (lemma
    replaceAllAux_eq_replaceAll below). -/
def replaceAllAux (p : Char) (ps rep : List Char) : Nat → List Char → List Char
  | 0, s => s
  | _ + 1, [] => []
  | fuel + 1, c :: cs =>
    if startsWithChars (p :: ps) (c :: cs) then
      rep ++ replaceAllAux p ps rep fuel (cs.drop ps.length)
    else
      c :: replaceAllAux p ps rep fuel cs

/-- Model of Python s.replace(pat, rep). The sources only ever call it
    with the nonempty patterns "http:-slash-slash" and "/"; for an empty
    pattern we return s unchanged (never exercised). -/
def pyReplace (s pat rep : String) : String :=
  match pat.data with
  | [] => s
  | p :: ps => String.mk (replaceAllAux p ps rep.data s.data.length s.data)

/-- Model of Python s.lower(), char by char (the MIME types the
    pipeline compares are ASCII, where Char.toLower agrees with
    Python). -/
def pyLower (s : String) : String :=
  String.mk (s.data.map Char.toLower)

/-- Split a character list on the slash character, keeping empty
    segments, as Python str.split("/") does. -/
def splitSlash : List Char → List (List Char)
  | [] => [[]]
  | c :: cs =>
    if c = '/' then
      [] :: splitSlash cs
    else
      match splitSlash cs with
      | [] => [[c]]
      | g :: gs => (c :: g) :: gs

/-- Python url.split("/")[-1]: the last segment (splitSlash never
    returns an empty list, so the default is never used). -/
def urlTail (url : String) : String :=
  String.mk ((splitSlash url.data).getLastD [])

/-! ## Paths and the filesystem model -/

/-- A filesystem path, as the list of its segments below the process
    root. -/
abbrev FsPath := List String

/-- Model of pathlib Path.__truediv__: the right operand is split on
    slashes and empty segments are dropped (so joining with the empty
    string is the identity, as in pathlib). -/
def joinPath (p : FsPath) (s : String) : FsPath :=
  p ++ ((splitSlash s.data).filter (fun seg => seg ≠ [])).map (fun seg => String.mk seg)

/-- The in-memory documents the pipeline reads from cache files. Only
    the fields the code actually reads are modelled; absent JSON keys
    are the empty string or empty list, mirroring dict.get defaults. -/
structure Resource where
  url : String
  name : String
  mimetype : String
deriving DecidableEq, Repr

structure Package where
  author : String
  resources : List Resource
deriving DecidableEq, Repr

structure Group where
  name : String
  packages : List String
deriving DecidableEq, Repr

/-- Contents of one file: raw text (downloads, errors.log) or a
    JSON-serialized package or group document. -/
inductive FileData where
  | text (s : String)
  | pkgDoc (p : Package)
  | grpDoc (g : Group)
deriving DecidableEq, Repr

/-- Model of json.loads on a cache file then reading it as a package
    dict: a package document round-trips; any other JSON value yields
    empty defaults for the author and resources keys. -/
def FileData.asPackage : FileData → Package
  | .pkgDoc p => p
  | _ => ⟨"", []⟩

/-- Model of json.loads on a cache file then reading it as a group
    dict: a group document round-trips; any other JSON value yields
    empty defaults for the name and packages keys. -/
def FileData.asGroup : FileData → Group
  | .grpDoc g => g
  | _ => ⟨"", []⟩

/-- The filesystem: a write log, newest entry first. A write shadows
    older entries for the same path; reads find the newest. -/
structure FS where
  files : List (FsPath × FileData)
deriving DecidableEq, Repr

def FS.read (fs : FS) (p : FsPath) : Option FileData :=
  (fs.files.find? (fun e => e.1 == p)).map (fun e => e.2)

/-- Model of Path.exists() restricted to files the pipeline wrote. -/
def FS.existsFile (fs : FS) (p : FsPath) : Bool :=
  (fs.read p).isSome

/-- Model of writing a whole file (write_text, or open("wb") streamed to
    completion). -/
def FS.write (fs : FS) (p : FsPath) (d : FileData) : FS :=
  ⟨(p, d) :: fs.files⟩

/-- The current text of a file, empty if absent (or not a text file,
    which the pipeline never does to the files it appends to). -/
def FS.textAt (fs : FS) (p : FsPath) : String :=
  match fs.read p with
  | some (.text t) => t
  | _ => ""

/-- Model of open(p, "a") followed by f.write(s). -/
def FS.appendText (fs : FS) (p : FsPath) (s : String) : FS :=
  fs.write p (.text (fs.textAt p ++ s))

/-! ## The CKAN client state (fetch_data.py) -/

/-- Default allow-set of MIME types from CKAN.__init__. -/
def defaultMimeTypes : List String :=
  ["application/json", "application/x-javascript", "text/javascript",
   "text/x-javascript", "text/x-json", "text/csv"]

/-- The configuration fields of the CKAN class that the dump functions
    read. -/
structure CKAN where
  output_path : FsPath
  supported_mime_types : List String
deriving DecidableEq, Repr

/-- CKAN.__init__: cache directory is output_path / ".cache". -/
def CKAN.cache_path (c : CKAN) : FsPath :=
  joinPath c.output_path ".cache"

/-- CKAN.__init__: `mime_types_to_download or [...]` — a None (or
    empty, by Python truthiness) argument selects the default list. -/
def CKAN.init (output_path : FsPath) (mime_types_to_download : Option (List String)) : CKAN :=
  match mime_types_to_download with
  | none => ⟨output_path, defaultMimeTypes⟩
  | some [] => ⟨output_path, defaultMimeTypes⟩
  | some l => ⟨output_path, l⟩

/-! ## The downloader (CKAN._download) -/

/-- One attempt of `session.get(url)` + streaming the body:
    ok: the whole body streamed to the file;
    fetchError: get() or raise_for_status() raised, file untouched;
    streamError: raised mid-stream after `written` reached the file
    (open("wb") truncates, so the file holds exactly `written`). -/
inductive Attempt where
  | ok (content : String)
  | fetchError (err : String)
  | streamError (written : String) (err : String)
deriving DecidableEq, Repr

def isFailAttempt : Attempt → Bool
  | .ok _ => false
  | .fetchError _ => true
  | .streamError _ _ => true

/-- str(exc) of the exception an attempt raised. -/
def attemptErr : Attempt → String
  | .ok _ => ""
  | .fetchError e => e
  | .streamError _ e => e

/-- Python str(last_exc) where last_exc may still be None. -/
def strOfExc : Option String → String
  | some e => e
  | none => "None"

/-- Which exit the _download coroutine took (the source returns None on
    every path; the constructor records the control-flow exit). -/
inductive Outcome where
  | success
  | skippedNoUrl
  | skippedExists
  | failed
deriving DecidableEq, Repr

structure DownloadResult where
  outcome : Outcome
  fs : FS
  attempts : Nat
deriving DecidableEq, Repr

/-- The `for _ in range(max_retries)` loop of _download. `netU i` is the
    outcome of the i-th attempt for this url. Returns the filesystem,
    the number of attempts made, and none on break (success) or
    some (str(last_exc)) when the loop ran to exhaustion (for-else). -/
def downloadLoop (netU : Nat → Attempt) (dest : FsPath) :
    Nat → Nat → Option String → FS → FS × Nat × Option String
  | 0, made, lastExc, fs => (fs, made, some (strOfExc lastExc))
  | n + 1, made, _lastExc, fs =>
    match netU made with
    | .ok content => (fs.write dest (.text content), made + 1, none)
    | .fetchError e => downloadLoop netU dest n (made + 1) (some e) fs
    | .streamError w e => downloadLoop netU dest n (made + 1) (some e) (fs.write dest (.text w))

/-- Lines 51-53 of fetch_data.py: rewrite http scheme to https. Note
    the source uses str.replace, which rewrites every occurrence. -/
def normalizeUrl (url : String) : String :=
  if pyStartsWith url "http://" then pyReplace url "http://" "https://" else url

/-- Lines 55-61 of fetch_data.py: the destination file name — the
    resource name, else the last path segment of the (already
    normalized) url, then slashes replaced by dashes. -/
def resolvedName (resource : Resource) : String :=
  let name := if resource.name = "" then urlTail (normalizeUrl resource.url) else resource.name
  pyReplace name "/" "-"

/-- Line 63 of fetch_data.py: the destination path. -/
def destPath (resource : Resource) (download_path : FsPath) : FsPath :=
  joinPath download_path (resolvedName resource)

/-- The errors.log file next to the output root. -/
def errorsLogPath (c : CKAN) : FsPath :=
  joinPath c.output_path "errors.log"

/-- CKAN._download, lines 41-92 of fetch_data.py. `net url i` is the
    outcome of attempt i for that url. -/
def CKAN.download (c : CKAN) (net : String → Nat → Attempt)
    (resource : Resource) (download_path : FsPath) (fs : FS) : DownloadResult :=
  if resource.url = "" then
    ⟨.skippedNoUrl, fs, 0⟩
  else
    let url := normalizeUrl resource.url
    let dest := destPath resource download_path
    if fs.existsFile dest then
      ⟨.skippedExists, fs, 0⟩
    else
      match downloadLoop (net url) dest 10 0 none fs with
      | (fs, made, none) => ⟨.success, fs, made⟩
      | (fs, made, some e) =>
        ⟨.failed,
         fs.appendText (errorsLogPath c) ("Couldn\x27t download " ++ url ++ ": " ++ e),
         made⟩

/-! ## Metadata cache steps (inlined in dump_package / dump_group) -/

/-- Lines 98-103 of fetch_data.py: the read-through cache step of
    dump_package. Returns the package, the filesystem, and whether the
    network action package_show was invoked. -/
def getOrFetchPkg (c : CKAN) (package_show : String → Package)
    (package_id : String) (fs : FS) : Package × FS × Bool :=
  let cache := joinPath c.cache_path (package_id ++ ".json")
  if ¬ fs.existsFile cache then
    let package := package_show package_id
    (package, fs.write cache (.pkgDoc package), true)
  else
    (((fs.read cache).getD (.text "")).asPackage, fs, false)

/-- Lines 126-131 of fetch_data.py: the read-through cache step of
    dump_group. -/
def getOrFetchGrp (c : CKAN) (group_show : String → Group)
    (group_id : String) (fs : FS) : Group × FS × Bool :=
  let cache := joinPath c.cache_path (group_id ++ ".json")
  if ¬ fs.existsFile cache then
    let group := group_show group_id
    (group, fs.write cache (.grpDoc group), true)
  else
    (((fs.read cache).getD (.text "")).asGroup, fs, false)

/-! ## dump_package and dump_group -/

/-- Lines 111-117 of fetch_data.py: a resource survives the two
    `continue` guards iff its lowered mimetype is in the allow-set and
    its url is nonempty. -/
def isDownloadable (c : CKAN) (r : Resource) : Bool :=
  c.supported_mime_types.contains (pyLower r.mimetype) && r.url ≠ ""

/-- The resources of a package for which dump_package launches a
    _download task. -/
def selectedResources (c : CKAN) (resources : List Resource) : List Resource :=
  resources.filter (fun r => isDownloadable c r)

structure PkgDumpResult where
  package : Package
  fetched : Bool
  target : FsPath
  fs : FS
deriving DecidableEq, Repr

/-- CKAN.dump_package, lines 97-123 of fetch_data.py. The gather over
    the per-resource download tasks is modelled as a left fold. -/
def CKAN.dump_package (c : CKAN) (package_show : String → Package)
    (net : String → Nat → Attempt) (package_id : String)
    (download_path : FsPath) (fs : FS) : PkgDumpResult :=
  match getOrFetchPkg c package_show package_id fs with
  | (package, fs, fetched) =>
    let download_path :=
      if package.author ≠ "" then joinPath download_path package.author else download_path
    let fs := (selectedResources c package.resources).foldl
      (fun fs r => (c.download net r download_path fs).fs) fs
    let fs := fs.write (joinPath download_path "metadata.json") (.pkgDoc package)
    ⟨package, fetched, download_path, fs⟩

structure GrpDumpResult where
  group : Group
  fetched : Bool
  target : FsPath
  fs : FS
deriving DecidableEq, Repr

/-- CKAN.dump_group, lines 125-144 of fetch_data.py. The gather over
    the per-package dump tasks is modelled as a left fold. -/
def CKAN.dump_group (c : CKAN) (group_show : String → Group)
    (package_show : String → Package) (net : String → Nat → Attempt)
    (group_id : String) (fs : FS) : GrpDumpResult :=
  match getOrFetchGrp c group_show group_id fs with
  | (group, fs, fetched) =>
    let download_path := joinPath c.output_path group.name
    let fs := group.packages.foldl
      (fun fs pid => (c.dump_package package_show net pid download_path fs).fs) fs
    let fs := fs.write (joinPath download_path "metadata.json") (.grpDoc group)
    ⟨group, fetched, download_path, fs⟩

/-! ## The transport retry loop (async_ckan.py) -/

/-- One attempt of `session.get(...)` inside _request_fn_get:
    ok: raise_for_status passed, body text read;
    responseError: aiohttp.ClientResponseError (HTTP 4xx/5xx), the only
    exception the handler catches;
    connectionError: any other exception (connection faults and the
    like), which the handler does not catch. -/
inductive ReqAttempt where
  | ok (status : Nat) (body : String)
  | responseError (err : String)
  | connectionError (err : String)
deriving DecidableEq, Repr

def isRespError : ReqAttempt → Bool
  | .responseError _ => true
  | _ => false

/-- The body of the value _request_fn_get returns: the response text on
    a real success, or the literal empty dict faked after exhaustion. -/
inductive ReqBody where
  | text (s : String)
  | emptyDict
deriving DecidableEq, Repr

/-- The retry loop of AsyncRemoteCKAN._request_fn_get, lines 73-87 of
    async_ckan.py. Except.error is an exception escaping the coroutine;
    the second component counts the attempts made. -/
def requestLoop (net : Nat → ReqAttempt) :
    Nat → Nat → Except String (Nat × ReqBody) × Nat
  | 0, made => (.ok (200, .emptyDict), made)
  | n + 1, made =>
    match net made with
    | .ok st body => (.ok (st, .text body), made + 1)
    | .responseError _ => requestLoop net n (made + 1)
    | .connectionError e => (.error e, made + 1)

/-- AsyncRemoteCKAN._request_fn_get with max_retries = 10. -/
def requestFnGet (net : Nat → ReqAttempt) : Except String (Nat × ReqBody) × Nat :=
  requestLoop net 10 0

/-- Split a character list on the newline character, keeping empty
    segments. -/
def splitNl : List Char → List (List Char)
  | [] => [[]]
  | c :: cs =>
    if c = '\n' then
      [] :: splitNl cs
    else
      match splitNl cs with
      | [] => [[c]]
      | g :: gs => (c :: g) :: gs

/-- Number of lines of a text file: one more than the number of newline
    characters it contains. -/
def lineCount (s : String) : Nat :=
  (splitNl s.data).length

/-! ## String lemmas -/

theorem startsWithChars_append_self (l t : List Char) :
    startsWithChars l (l ++ t) = true := by
  induction l with
  | nil => rfl
  | cons c cs ih => simp [startsWithChars, ih]

theorem startsWithChars_eq_true_iff (l₁ l₂ : List Char) :
    startsWithChars l₁ l₂ = true ↔ ∃ t, l₂ = l₁ ++ t := by
  induction l₁ generalizing l₂ with
  | nil => simp [startsWithChars]
  | cons p ps ih =>
    cases l₂ with
    | nil => simp [startsWithChars]
    | cons c cs =>
      simp only [startsWithChars, Bool.and_eq_true, beq_iff_eq, ih, List.cons_append,
        List.cons.injEq]
      constructor
      · rintro ⟨rfl, t, rfl⟩
        exact ⟨t, rfl, rfl⟩
      · rintro ⟨t, rfl, rfl⟩
        exact ⟨rfl, t, rfl⟩

theorem startsWithChars_http_of_https (X : List Char) :
    startsWithChars "http://".data ("https://".data ++ X) = false := rfl

theorem replaceAllAux_eq_replaceAll (p : Char) (ps rep : List Char) :
    ∀ (F : Nat) (s : List Char), s.length ≤ F →
      replaceAllAux p ps rep F s = replaceAll p ps rep s := by
  intro F
  induction F with
  | zero =>
    intro s hs
    have hnil : s = [] := List.eq_nil_of_length_eq_zero (Nat.le_zero.mp hs)
    subst hnil
    rw [replaceAllAux, replaceAll]
  | succ F ih =>
    intro s hs
    cases s with
    | nil => rw [replaceAllAux, replaceAll]
    | cons c cs =>
      rw [replaceAllAux, replaceAll]
      have hcs : cs.length ≤ F := by
        simp only [List.length_cons] at hs
        omega
      by_cases h : startsWithChars (p :: ps) (c :: cs) = true
      · rw [if_pos h, if_pos h, ih (cs.drop ps.length) (by
          rw [List.length_drop]
          omega)]
      · rw [if_neg h, if_neg h, ih cs hcs]

theorem pyReplace_slash_eq (s : String) :
    pyReplace s "/" "-" = String.mk (replaceAll '/' [] "-".data s.data) := by
  show String.mk (replaceAllAux '/' [] "-".data s.data.length s.data) = _
  rw [replaceAllAux_eq_replaceAll '/' [] "-".data s.data.length s.data (Nat.le_refl _)]

theorem pyReplace_http_eq (u : String) :
    pyReplace u "http://" "https://" =
      String.mk (replaceAll 'h' "ttp://".data "https://".data u.data) := by
  show String.mk (replaceAllAux 'h' "ttp://".data "https://".data u.data.length u.data) = _
  rw [replaceAllAux_eq_replaceAll 'h' "ttp://".data "https://".data u.data.length u.data
    (Nat.le_refl _)]

theorem replaceAll_append_pat (p : Char) (ps rep t : List Char) :
    replaceAll p ps rep ((p :: ps) ++ t) = rep ++ replaceAll p ps rep t := by
  rw [List.cons_append, replaceAll]
  have h : startsWithChars (p :: ps) (p :: (ps ++ t)) = true := by
    have := startsWithChars_append_self (p :: ps) t
    simpa using this
  simp [h, List.drop_left]

theorem slash_not_mem_replaceAll_slash (rep : List Char) (hrep : '/' ∉ rep) :
    ∀ l : List Char, '/' ∉ replaceAll '/' [] rep l := by
  intro l
  induction l with
  | nil => simp [replaceAll]
  | cons c cs ih =>
    rw [replaceAll]
    by_cases hc : c = '/'
    · subst hc
      simp only [startsWithChars, beq_self_eq_true, Bool.true_and, if_pos rfl,
        List.drop_zero]
      intro hmem
      rcases List.mem_append.mp hmem with h | h
      · exact hrep h
      · exact ih h
    · have hb : ('/' == c) = false := by
        rw [beq_eq_false_iff_ne]
        exact fun h => hc h.symm
      have hsw : startsWithChars ['/'] (c :: cs) = false := by
        simp [startsWithChars, hb]
      simp only [hsw, Bool.false_eq_true, if_false, List.mem_cons]
      rintro (h | h)
      · exact hc h.symm
      · exact ih h

theorem slash_not_mem_pyReplace (s : String) :
    '/' ∉ (pyReplace s "/" "-").data := by
  rw [pyReplace_slash_eq]
  exact slash_not_mem_replaceAll_slash "-".data (by decide) s.data

/-! ## Path lemmas -/

theorem splitSlash_no_slash (l : List Char) (h : '/' ∉ l) :
    splitSlash l = [l] := by
  induction l with
  | nil => rfl
  | cons c cs ih =>
    have hc : c ≠ '/' := fun hcc => h (hcc ▸ List.mem_cons_self c cs)
    have hcs : '/' ∉ cs := fun hmem => h (List.mem_cons_of_mem c hmem)
    rw [splitSlash]
    simp [hc, ih hcs]

theorem joinPath_empty (p : FsPath) : joinPath p "" = p := by
  simp [joinPath, splitSlash]

theorem joinPath_single (p : FsPath) (s : String) (hns : '/' ∉ s.data)
    (hne : s ≠ "") : joinPath p s = p ++ [s] := by
  have hd : s.data ≠ [] := by
    intro h
    apply hne
    cases s with
    | mk l => simp at h; simp [h]
  rw [joinPath, splitSlash_no_slash s.data hns]
  simp [hd]

/-! ## Filesystem lemmas -/

theorem FS.read_write_self (fs : FS) (p : FsPath) (d : FileData) :
    (fs.write p d).read p = some d := by
  simp [FS.read, FS.write, List.find?]

theorem FS.read_write_ne (fs : FS) {p q : FsPath} (d : FileData) (h : q ≠ p) :
    (fs.write p d).read q = fs.read q := by
  have hb : (p == q) = false := beq_eq_false_iff_ne.mpr (Ne.symm h)
  simp [FS.read, FS.write, List.find?, hb]

theorem FS.existsFile_write_self (fs : FS) (p : FsPath) (d : FileData) :
    (fs.write p d).existsFile p = true := by
  simp [FS.existsFile, FS.read_write_self]

/-- Every mutation in the model is a cons, so a run only ever extends
    the write log. -/
def FS.Grows (fs fs' : FS) : Prop :=
  ∃ l, fs'.files = l ++ fs.files

theorem FS.Grows.refl (fs : FS) : FS.Grows fs fs := ⟨[], rfl⟩

theorem FS.Grows.trans {fs₁ fs₂ fs₃ : FS} (h₁ : FS.Grows fs₁ fs₂)
    (h₂ : FS.Grows fs₂ fs₃) : FS.Grows fs₁ fs₃ := by
  obtain ⟨l₁, e₁⟩ := h₁
  obtain ⟨l₂, e₂⟩ := h₂
  exact ⟨l₂ ++ l₁, by rw [e₂, e₁, List.append_assoc]⟩

theorem FS.Grows.write (fs : FS) (p : FsPath) (d : FileData) :
    FS.Grows fs (fs.write p d) := ⟨[(p, d)], rfl⟩

theorem FS.Grows.appendText (fs : FS) (p : FsPath) (s : String) :
    FS.Grows fs (fs.appendText p s) := FS.Grows.write fs p _

theorem find?_isSome_append {f : FsPath × FileData → Bool}
    {l m : List (FsPath × FileData)} (h : (m.find? f).isSome = true) :
    ((l ++ m).find? f).isSome = true := by
  induction l with
  | nil => rw [List.nil_append]; exact h
  | cons a l ih =>
    rw [List.cons_append]
    cases hf : f a with
    | true => rw [List.find?_cons_of_pos _ hf]; rfl
    | false => rw [List.find?_cons_of_neg _ (by rw [hf]; exact Bool.false_ne_true)]; exact ih

theorem isSome_map_eq {α β : Type} (g : α → β) (o : Option α) :
    (o.map g).isSome = o.isSome := by
  cases o <;> rfl

theorem FS.existsFile_mono {fs fs' : FS} (h : FS.Grows fs fs') {p : FsPath}
    (he : fs.existsFile p = true) : fs'.existsFile p = true := by
  obtain ⟨l, e⟩ := h
  unfold FS.existsFile FS.read at he ⊢
  rw [isSome_map_eq] at he ⊢
  rw [e]
  exact find?_isSome_append he

theorem downloadLoop_grows (netU : Nat → Attempt) (dest : FsPath) :
    ∀ n made lastExc fs, FS.Grows fs (downloadLoop netU dest n made lastExc fs).1 := by
  intro n
  induction n with
  | zero => intro made le fs; exact FS.Grows.refl fs
  | succ n ih =>
    intro made le fs
    rw [downloadLoop]
    cases netU made with
    | ok content => exact FS.Grows.write fs dest _
    | fetchError e => exact ih (made + 1) (some e) fs
    | streamError w e =>
      exact (FS.Grows.write fs dest _).trans (ih (made + 1) (some e) _)

theorem download_grows (c : CKAN) (net : String → Nat → Attempt)
    (r : Resource) (dp : FsPath) (fs : FS) :
    FS.Grows fs (c.download net r dp fs).fs := by
  rw [CKAN.download]
  by_cases hu : r.url = ""
  · simp [hu]
    exact FS.Grows.refl fs
  · simp only [hu, if_false]
    by_cases he : fs.existsFile (destPath r dp) = true
    · simp [he]
      exact FS.Grows.refl fs
    · simp only [he, Bool.false_eq_true, if_false]
      have hg := downloadLoop_grows (net (normalizeUrl r.url)) (destPath r dp) 10 0 none fs
      rcases hR : downloadLoop (net (normalizeUrl r.url)) (destPath r dp) 10 0 none fs with
        ⟨fs1, made1, exh1⟩
      rw [hR] at hg
      cases exh1 with
      | none => exact hg
      | some e => exact hg.trans (FS.Grows.appendText fs1 _ _)

theorem foldl_grows {α : Type} (f : FS → α → FS)
    (hf : ∀ fs a, FS.Grows fs (f fs a)) :
    ∀ (l : List α) (fs : FS), FS.Grows fs (l.foldl f fs) := by
  intro l
  induction l with
  | nil => intro fs; exact FS.Grows.refl fs
  | cons a l ih =>
    intro fs
    rw [List.foldl_cons]
    exact (hf fs a).trans (ih (f fs a))

theorem dump_package_grows (c : CKAN) (package_show : String → Package)
    (net : String → Nat → Attempt) (pid : String) (dp : FsPath) (fs : FS) :
    FS.Grows fs (c.dump_package package_show net pid dp fs).fs := by
  rw [CKAN.dump_package]
  rcases hG : getOrFetchPkg c package_show pid fs with ⟨package, fs1, fetched⟩
  have h1 : FS.Grows fs fs1 := by
    rw [getOrFetchPkg] at hG
    by_cases hc : fs.existsFile (joinPath c.cache_path (pid ++ ".json")) = true
    · simp [hc] at hG
      rw [← hG.2.1]
      exact FS.Grows.refl fs
    · simp [hc] at hG
      rw [← hG.2.1]
      exact FS.Grows.write fs _ _
  exact (h1.trans (foldl_grows _ (fun fs r => download_grows c net r _ fs) _ fs1)).trans
    (FS.Grows.write _ _ _)

theorem downloadLoop_read_ne (netU : Nat → Attempt) (dest : FsPath) :
    ∀ n made lastExc fs q, q ≠ dest →
      FS.read (downloadLoop netU dest n made lastExc fs).1 q = fs.read q := by
  intro n
  induction n with
  | zero => intro made le fs q hq; rfl
  | succ n ih =>
    intro made le fs q hq
    rw [downloadLoop]
    cases netU made with
    | ok content => exact FS.read_write_ne fs _ hq
    | fetchError e => exact ih (made + 1) (some e) fs q hq
    | streamError w e =>
      rw [ih (made + 1) (some e) _ q hq]
      exact FS.read_write_ne fs _ hq

theorem downloadLoop_all_fail (netU : Nat → Attempt) (dest : FsPath) :
    ∀ n made lastExc fs, 0 < n →
      (∀ i, i < n → isFailAttempt (netU (made + i)) = true) →
      (downloadLoop netU dest n made lastExc fs).2.1 = made + n ∧
      (downloadLoop netU dest n made lastExc fs).2.2 =
        some (attemptErr (netU (made + n - 1))) := by
  intro n
  induction n with
  | zero => intro made le fs h; exact absurd h (by omega)
  | succ n ih =>
    intro made le fs _ hfail
    have h0 : isFailAttempt (netU made) = true := by
      simpa using hfail 0 (by omega)
    have hfail' : ∀ i, i < n → isFailAttempt (netU (made + 1 + i)) = true := by
      intro i hi
      have := hfail (i + 1) (by omega)
      rwa [show made + (i + 1) = made + 1 + i by omega] at this
    rw [downloadLoop]
    cases hn : netU made with
    | ok content => rw [hn] at h0; simp [isFailAttempt] at h0
    | fetchError e =>
      rcases Nat.eq_zero_or_pos n with hz | hpos
      · subst hz
        refine ⟨rfl, ?_⟩
        rw [show made + (0 + 1) - 1 = made from by omega, hn]
        rfl
      · have ihr := ih (made + 1) (some e) fs hpos hfail'
        rw [show made + 1 + n - 1 = made + (n + 1) - 1 from by omega] at ihr
        refine ⟨?_, ?_⟩
        · show (downloadLoop netU dest n (made + 1) (some e) fs).2.1 = made + (n + 1)
          rw [ihr.1]
          omega
        · show (downloadLoop netU dest n (made + 1) (some e) fs).2.2 =
            some (attemptErr (netU (made + (n + 1) - 1)))
          exact ihr.2
    | streamError w e =>
      rcases Nat.eq_zero_or_pos n with hz | hpos
      · subst hz
        refine ⟨rfl, ?_⟩
        rw [show made + (0 + 1) - 1 = made from by omega, hn]
        rfl
      · have ihr := ih (made + 1) (some e) (fs.write dest (.text w)) hpos hfail'
        rw [show made + 1 + n - 1 = made + (n + 1) - 1 from by omega] at ihr
        refine ⟨?_, ?_⟩
        · show (downloadLoop netU dest n (made + 1) (some e)
            (fs.write dest (.text w))).2.1 = made + (n + 1)
          rw [ihr.1]
          omega
        · show (downloadLoop netU dest n (made + 1) (some e)
            (fs.write dest (.text w))).2.2 =
            some (attemptErr (netU (made + (n + 1) - 1)))
          exact ihr.2

theorem downloadLoop_all_fail_read_dest (netU : Nat → Attempt) (dest : FsPath) :
    ∀ n made lastExc fs w e, 0 < n →
      (∀ i, i < n → isFailAttempt (netU (made + i)) = true) →
      netU (made + n - 1) = .streamError w e →
      FS.read (downloadLoop netU dest n made lastExc fs).1 dest =
        some (.text w) := by
  intro n
  induction n with
  | zero => intro made le fs w e h; exact absurd h (by omega)
  | succ n ih =>
    intro made le fs w e _ hfail hlast
    have h0 : isFailAttempt (netU made) = true := by
      simpa using hfail 0 (by omega)
    have hfail' : ∀ i, i < n → isFailAttempt (netU (made + 1 + i)) = true := by
      intro i hi
      have := hfail (i + 1) (by omega)
      rwa [show made + (i + 1) = made + 1 + i by omega] at this
    have hlast' : netU (made + 1 + n - 1) = .streamError w e := by
      rwa [show made + 1 + n - 1 = made + (n + 1) - 1 by omega]
    rw [downloadLoop]
    cases hn : netU made with
    | ok content => rw [hn] at h0; simp [isFailAttempt] at h0
    | fetchError e2 =>
      rcases Nat.eq_zero_or_pos n with hz | hpos
      · subst hz
        have hm : netU made = .streamError w e := by
          simpa [Nat.add_sub_cancel] using hlast
        rw [hm] at hn
        exact Attempt.noConfusion hn
      · show FS.read (downloadLoop netU dest n (made + 1) (some e2) fs).1 dest =
          some (.text w)
        exact ih (made + 1) (some e2) fs w e hpos hfail' hlast'
    | streamError w2 e2 =>
      rcases Nat.eq_zero_or_pos n with hz | hpos
      · subst hz
        have hm : netU made = .streamError w e := by
          simpa [Nat.add_sub_cancel] using hlast
        rw [hn] at hm
        have hw : w2 = w := by
          injection hm with hw he2
        subst hw
        show FS.read (downloadLoop netU dest 0 (made + 1) (some e2)
          (fs.write dest (.text w2))).1 dest = some (.text w2)
        exact FS.read_write_self _ _ _
      · show FS.read (downloadLoop netU dest n (made + 1) (some e2)
          (fs.write dest (.text w2))).1 dest = some (.text w)
        exact ih (made + 1) (some e2) _ w e hpos hfail' hlast'

theorem requestLoop_all_resp (net : Nat → ReqAttempt) :
    ∀ n made, (∀ i, i < n → isRespError (net (made + i)) = true) →
      requestLoop net n made = (.ok (200, .emptyDict), made + n) := by
  intro n
  induction n with
  | zero => intro made h; rfl
  | succ n ih =>
    intro made hresp
    have h0 : isRespError (net made) = true := by
      simpa using hresp 0 (by omega)
    rw [requestLoop]
    cases hn : net made with
    | ok st body => rw [hn] at h0; simp [isRespError] at h0
    | connectionError e => rw [hn] at h0; simp [isRespError] at h0
    | responseError e =>
      show requestLoop net n (made + 1) = (.ok (200, .emptyDict), made + (n + 1))
      rw [ih (made + 1) (fun i hi => by
        have := hresp (i + 1) (by omega)
        rwa [show made + (i + 1) = made + 1 + i by omega] at this)]
      rw [show made + 1 + n = made + (n + 1) from by omega]

/-! ## Dump-level helper lemmas -/

theorem download_skips_of_exists (c : CKAN) (net : String → Nat → Attempt)
    (r : Resource) (dp : FsPath) (fs : FS) (hu : r.url ≠ "")
    (he : fs.existsFile (destPath r dp) = true) :
    c.download net r dp fs = ⟨.skippedExists, fs, 0⟩ := by
  rw [CKAN.download]
  simp [hu, he]

theorem download_all_fail (c : CKAN) (net : String → Nat → Attempt)
    (r : Resource) (dp : FsPath) (fs : FS) (hu : r.url ≠ "")
    (he : fs.existsFile (destPath r dp) = false)
    (hfail : ∀ i, i < 10 → isFailAttempt (net (normalizeUrl r.url) i) = true)
    (hne : destPath r dp ≠ errorsLogPath c) :
    (c.download net r dp fs).outcome = .failed ∧
    (c.download net r dp fs).attempts = 10 ∧
    (c.download net r dp fs).fs.read (errorsLogPath c) =
      some (.text (fs.textAt (errorsLogPath c) ++
        ("Couldn\x27t download " ++ normalizeUrl r.url ++ ": " ++
          attemptErr (net (normalizeUrl r.url) 9)))) := by
  have hAF := downloadLoop_all_fail (net (normalizeUrl r.url)) (destPath r dp) 10 0 none fs
    (by omega) (fun i hi => by simpa using hfail i hi)
  have hRN := downloadLoop_read_ne (net (normalizeUrl r.url)) (destPath r dp) 10 0 none fs
    (errorsLogPath c) (Ne.symm hne)
  rw [CKAN.download]
  simp only [hu, he, Bool.false_eq_true, if_false]
  rcases hR : downloadLoop (net (normalizeUrl r.url)) (destPath r dp) 10 0 none fs with
    ⟨fs1, made1, exh1⟩
  rw [hR] at hAF hRN
  have hmade : made1 = 0 + 10 := hAF.1
  have hexh : exh1 = some (attemptErr (net (normalizeUrl r.url) (0 + 10 - 1))) := hAF.2
  have hRN' : fs1.read (errorsLogPath c) = fs.read (errorsLogPath c) := hRN
  subst hexh
  refine ⟨rfl, ?_, ?_⟩
  · show made1 = 10
    omega
  · show (fs1.appendText (errorsLogPath c)
      ("Couldn\x27t download " ++ normalizeUrl r.url ++ ": " ++
        attemptErr (net (normalizeUrl r.url) (0 + 10 - 1)))).read (errorsLogPath c) = _
    rw [FS.appendText, FS.read_write_self]
    have htext : fs1.textAt (errorsLogPath c) = fs.textAt (errorsLogPath c) := by
      unfold FS.textAt
      rw [hRN']
    rw [htext]

theorem download_partial_left_at_dest (c : CKAN) (net : String → Nat → Attempt)
    (r : Resource) (dp : FsPath) (fs : FS) (w e : String) (hu : r.url ≠ "")
    (he : fs.existsFile (destPath r dp) = false)
    (hfail : ∀ i, i < 10 → isFailAttempt (net (normalizeUrl r.url) i) = true)
    (hlast : net (normalizeUrl r.url) 9 = .streamError w e)
    (hne : destPath r dp ≠ errorsLogPath c) :
    (c.download net r dp fs).fs.read (destPath r dp) = some (.text w) := by
  have hRD := downloadLoop_all_fail_read_dest (net (normalizeUrl r.url)) (destPath r dp)
    10 0 none fs w e (by omega) (fun i hi => by simpa using hfail i hi) hlast
  have hAF := downloadLoop_all_fail (net (normalizeUrl r.url)) (destPath r dp) 10 0 none fs
    (by omega) (fun i hi => by simpa using hfail i hi)
  rw [CKAN.download]
  simp only [hu, he, Bool.false_eq_true, if_false]
  rcases hR : downloadLoop (net (normalizeUrl r.url)) (destPath r dp) 10 0 none fs with
    ⟨fs1, made1, exh1⟩
  rw [hR] at hRD hAF
  have hexh : exh1 = some (attemptErr (net (normalizeUrl r.url) (0 + 10 - 1))) := hAF.2
  subst hexh
  show (fs1.appendText (errorsLogPath c)
    ("Couldn\x27t download " ++ normalizeUrl r.url ++ ": " ++
      attemptErr (net (normalizeUrl r.url) (0 + 10 - 1)))).read (destPath r dp) =
    some (.text w)
  rw [FS.appendText, FS.read_write_ne _ _ hne]
  exact hRD

/-! ## Cache-step characterizations -/

theorem getOrFetchPkg_hit (c : CKAN) (package_show : String → Package)
    (pid : String) (fs : FS)
    (h : fs.existsFile (joinPath c.cache_path (pid ++ ".json")) = true) :
    getOrFetchPkg c package_show pid fs =
      (((fs.read (joinPath c.cache_path (pid ++ ".json"))).getD (.text "")).asPackage,
       fs, false) := by
  rw [getOrFetchPkg]
  simp [h]

theorem getOrFetchPkg_miss (c : CKAN) (package_show : String → Package)
    (pid : String) (fs : FS)
    (h : fs.existsFile (joinPath c.cache_path (pid ++ ".json")) = false) :
    getOrFetchPkg c package_show pid fs =
      (package_show pid,
       fs.write (joinPath c.cache_path (pid ++ ".json")) (.pkgDoc (package_show pid)),
       true) := by
  rw [getOrFetchPkg]
  simp [h]

theorem getOrFetchGrp_hit (c : CKAN) (group_show : String → Group)
    (gid : String) (fs : FS)
    (h : fs.existsFile (joinPath c.cache_path (gid ++ ".json")) = true) :
    getOrFetchGrp c group_show gid fs =
      (((fs.read (joinPath c.cache_path (gid ++ ".json"))).getD (.text "")).asGroup,
       fs, false) := by
  rw [getOrFetchGrp]
  simp [h]

theorem getOrFetchGrp_miss (c : CKAN) (group_show : String → Group)
    (gid : String) (fs : FS)
    (h : fs.existsFile (joinPath c.cache_path (gid ++ ".json")) = false) :
    getOrFetchGrp c group_show gid fs =
      (group_show gid,
       fs.write (joinPath c.cache_path (gid ++ ".json")) (.grpDoc (group_show gid)),
       true) := by
  rw [getOrFetchGrp]
  simp [h]

/-! ## Cache persistence across a dump -/

theorem dump_package_cache_exists (c : CKAN) (package_show : String → Package)
    (net : String → Nat → Attempt) (pid : String) (dp : FsPath) (fs : FS) :
    (c.dump_package package_show net pid dp fs).fs.existsFile
      (joinPath c.cache_path (pid ++ ".json")) = true := by
  rw [CKAN.dump_package]
  rcases hG : getOrFetchPkg c package_show pid fs with ⟨package, fs1, fetched⟩
  have h1 : fs1.existsFile (joinPath c.cache_path (pid ++ ".json")) = true := by
    by_cases hc : fs.existsFile (joinPath c.cache_path (pid ++ ".json")) = true
    · rw [getOrFetchPkg_hit c package_show pid fs hc] at hG
      cases hG
      exact hc
    · rw [getOrFetchPkg_miss c package_show pid fs (by simpa using hc)] at hG
      cases hG
      exact FS.existsFile_write_self fs _ _
  exact FS.existsFile_mono
    ((foldl_grows _ (fun fs r => download_grows c net r _ fs) _ fs1).trans
      (FS.Grows.write _ _ _)) h1

theorem dump_package_fetched_false (c : CKAN) (package_show : String → Package)
    (net : String → Nat → Attempt) (pid : String) (dp : FsPath) (fs : FS)
    (h : fs.existsFile (joinPath c.cache_path (pid ++ ".json")) = true) :
    (c.dump_package package_show net pid dp fs).fetched = false := by
  rw [CKAN.dump_package, getOrFetchPkg_hit c package_show pid fs h]

theorem dump_group_grows (c : CKAN) (group_show : String → Group)
    (package_show : String → Package) (net : String → Nat → Attempt)
    (gid : String) (fs : FS) :
    FS.Grows fs (c.dump_group group_show package_show net gid fs).fs := by
  rw [CKAN.dump_group]
  rcases hG : getOrFetchGrp c group_show gid fs with ⟨group, fs1, fetched⟩
  have h1 : FS.Grows fs fs1 := by
    by_cases hc : fs.existsFile (joinPath c.cache_path (gid ++ ".json")) = true
    · rw [getOrFetchGrp_hit c group_show gid fs hc] at hG
      cases hG
      exact FS.Grows.refl _
    · rw [getOrFetchGrp_miss c group_show gid fs (by simpa using hc)] at hG
      cases hG
      exact FS.Grows.write _ _ _
  exact (h1.trans
    (foldl_grows _ (fun fs pid => dump_package_grows c package_show net pid _ fs) _ fs1)).trans
    (FS.Grows.write _ _ _)

theorem dump_group_cache_exists (c : CKAN) (group_show : String → Group)
    (package_show : String → Package) (net : String → Nat → Attempt)
    (gid : String) (fs : FS) :
    (c.dump_group group_show package_show net gid fs).fs.existsFile
      (joinPath c.cache_path (gid ++ ".json")) = true := by
  rw [CKAN.dump_group]
  rcases hG : getOrFetchGrp c group_show gid fs with ⟨group, fs1, fetched⟩
  have h1 : fs1.existsFile (joinPath c.cache_path (gid ++ ".json")) = true := by
    by_cases hc : fs.existsFile (joinPath c.cache_path (gid ++ ".json")) = true
    · rw [getOrFetchGrp_hit c group_show gid fs hc] at hG
      cases hG
      exact hc
    · rw [getOrFetchGrp_miss c group_show gid fs (by simpa using hc)] at hG
      cases hG
      exact FS.existsFile_write_self fs _ _
  exact FS.existsFile_mono
    ((foldl_grows _ (fun fs pid => dump_package_grows c package_show net pid _ fs) _ fs1).trans
      (FS.Grows.write _ _ _)) h1

theorem dump_group_fetched_false (c : CKAN) (group_show : String → Group)
    (package_show : String → Package) (net : String → Nat → Attempt)
    (gid : String) (fs : FS)
    (h : fs.existsFile (joinPath c.cache_path (gid ++ ".json")) = true) :
    (c.dump_group group_show package_show net gid fs).fetched = false := by
  rw [CKAN.dump_group, getOrFetchGrp_hit c group_show gid fs h]

theorem resolvedName_no_slash (r : Resource) : '/' ∉ (resolvedName r).data := by
  show '/' ∉ (pyReplace (if r.name = "" then urlTail (normalizeUrl r.url) else r.name)
    "/" "-").data
  exact slash_not_mem_pyReplace _

/-! ## Claim theorems -/

/-- C1: once the cache file `<id>.json` exists under the cache root,
    the metadata step of dump_package and of dump_group parses and
    returns the cached document without invoking the network fetch; on
    a miss it calls the fetch, persists the document to `<id>.json`,
    and returns it; and after any dump run the cache file exists, so an
    immediately repeated run never fetches again. -/
theorem c1_cache_read_through :
    (∀ (c : CKAN) (package_show : String → Package) (pid : String) (fs : FS) (p : Package),
      fs.read (joinPath c.cache_path (pid ++ ".json")) = some (.pkgDoc p) →
      getOrFetchPkg c package_show pid fs = (p, fs, false)) ∧
    (∀ (c : CKAN) (package_show : String → Package) (pid : String) (fs : FS),
      fs.existsFile (joinPath c.cache_path (pid ++ ".json")) = false →
      getOrFetchPkg c package_show pid fs =
        (package_show pid,
         fs.write (joinPath c.cache_path (pid ++ ".json")) (.pkgDoc (package_show pid)),
         true)) ∧
    (∀ (c : CKAN) (package_show : String → Package) (net : String → Nat → Attempt)
        (pid : String) (dp dp' : FsPath) (fs : FS),
      (c.dump_package package_show net pid dp'
        ((c.dump_package package_show net pid dp fs).fs)).fetched = false) ∧
    (∀ (c : CKAN) (group_show : String → Group) (gid : String) (fs : FS) (g : Group),
      fs.read (joinPath c.cache_path (gid ++ ".json")) = some (.grpDoc g) →
      getOrFetchGrp c group_show gid fs = (g, fs, false)) ∧
    (∀ (c : CKAN) (group_show : String → Group) (gid : String) (fs : FS),
      fs.existsFile (joinPath c.cache_path (gid ++ ".json")) = false →
      getOrFetchGrp c group_show gid fs =
        (group_show gid,
         fs.write (joinPath c.cache_path (gid ++ ".json")) (.grpDoc (group_show gid)),
         true)) ∧
    (∀ (c : CKAN) (group_show : String → Group) (package_show : String → Package)
        (net : String → Nat → Attempt) (gid : String) (fs : FS),
      (c.dump_group group_show package_show net gid
        ((c.dump_group group_show package_show net gid fs).fs)).fetched = false) := by
  refine ⟨?_, ?_, ?_, ?_, ?_, ?_⟩
  · intro c package_show pid fs p hread
    have hex : fs.existsFile (joinPath c.cache_path (pid ++ ".json")) = true := by
      rw [FS.existsFile, hread]
      rfl
    rw [getOrFetchPkg_hit c package_show pid fs hex, hread]
    rfl
  · intro c package_show pid fs hmiss
    exact getOrFetchPkg_miss c package_show pid fs hmiss
  · intro c package_show net pid dp dp' fs
    exact dump_package_fetched_false c package_show net pid dp' _
      (dump_package_cache_exists c package_show net pid dp fs)
  · intro c group_show gid fs g hread
    have hex : fs.existsFile (joinPath c.cache_path (gid ++ ".json")) = true := by
      rw [FS.existsFile, hread]
      rfl
    rw [getOrFetchGrp_hit c group_show gid fs hex, hread]
    rfl
  · intro c group_show gid fs hmiss
    exact getOrFetchGrp_miss c group_show gid fs hmiss
  · intro c group_show package_show net gid fs
    exact dump_group_fetched_false c group_show package_show net gid _
      (dump_group_cache_exists c group_show package_show net gid fs)

/-- C1 witness: a concrete cache hit returns the stored package without
    fetching. -/
theorem c1_cache_read_through_witness :
    getOrFetchPkg ⟨["out"], defaultMimeTypes⟩ (fun _ => ⟨"net", []⟩) "x"
      ⟨[(["out", ".cache", "x.json"], .pkgDoc ⟨"a", []⟩)]⟩ =
      (⟨"a", []⟩, ⟨[(["out", ".cache", "x.json"], .pkgDoc ⟨"a", []⟩)]⟩, false) :=
  c1_cache_read_through.1 ⟨["out"], defaultMimeTypes⟩ (fun _ => ⟨"net", []⟩) "x"
    ⟨[(["out", ".cache", "x.json"], .pkgDoc ⟨"a", []⟩)]⟩ ⟨"a", []⟩ rfl

/-- C2: when the resolved destination file already exists, _download
    returns immediately on the existence-check path, with the
    filesystem unchanged and zero attempts consumed from the network. -/
theorem c2_download_skips_existing (c : CKAN) (net : String → Nat → Attempt)
    (r : Resource) (dp : FsPath) (fs : FS) (hu : r.url ≠ "")
    (he : fs.existsFile (destPath r dp) = true) :
    c.download net r dp fs = ⟨.skippedExists, fs, 0⟩ :=
  download_skips_of_exists c net r dp fs hu he

/-- C2 witness: a concrete resource whose destination already exists is
    skipped with no filesystem change and no attempt. -/
theorem c2_download_skips_existing_witness :
    (⟨["out"], defaultMimeTypes⟩ : CKAN).download (fun _ _ => .fetchError "x")
      ⟨"https://h/f.csv", "f.csv", "text/csv"⟩ ["out"]
      ⟨[(["out", "f.csv"], .text "old")]⟩ =
      ⟨.skippedExists, ⟨[(["out", "f.csv"], .text "old")]⟩, 0⟩ :=
  c2_download_skips_existing ⟨["out"], defaultMimeTypes⟩ (fun _ _ => .fetchError "x")
    ⟨"https://h/f.csv", "f.csv", "text/csv"⟩ ["out"]
    ⟨[(["out", "f.csv"], .text "old")]⟩ (by decide) rfl

/-- C3: a resource survives the two continue-guards of dump_package
    (and hence gets a download task) iff its case-folded MIME type is
    in the configured allow-set and its URL is nonempty; with the
    default allow-set, mimetype APPLICATION/JSON with a nonempty URL is
    selected and an empty URL is excluded. -/
theorem c3_filter_iff :
    (∀ (c : CKAN) (resources : List Resource) (r : Resource),
      r ∈ selectedResources c resources ↔
        r ∈ resources ∧ pyLower r.mimetype ∈ c.supported_mime_types ∧ r.url ≠ "") ∧
    isDownloadable ⟨["out"], defaultMimeTypes⟩
      ⟨"http://x/y.json", "", "APPLICATION/JSON"⟩ = true ∧
    isDownloadable ⟨["out"], defaultMimeTypes⟩ ⟨"", "", "application/json"⟩ = false := by
  refine ⟨?_, rfl, rfl⟩
  intro c resources r
  simp [selectedResources, isDownloadable, List.mem_filter]

/-- C4 counterexample: the record written to errors.log carries no
    trailing newline (the source does f.write of the bare f-string), so
    two permanently-failed downloads leave a log whose two records sit
    on a single line — lineCount 1 where one-line-per-record would give
    2. This refutes the claim that each record is appended as one line. -/
theorem c4_log_single_line_counterexample :
    FS.textAt ((⟨["out"], defaultMimeTypes⟩ : CKAN).download
        (fun _ _ => .fetchError "boom") ⟨"https://b", "f2", "text/csv"⟩ ["out"]
        ((⟨["out"], defaultMimeTypes⟩ : CKAN).download
          (fun _ _ => .fetchError "boom") ⟨"https://a", "f1", "text/csv"⟩ ["out"]
          ⟨[]⟩).fs).fs
      ["out", "errors.log"] =
      "Couldn\x27t download https://a: boomCouldn\x27t download https://b: boom" ∧
    lineCount (FS.textAt ((⟨["out"], defaultMimeTypes⟩ : CKAN).download
        (fun _ _ => .fetchError "boom") ⟨"https://b", "f2", "text/csv"⟩ ["out"]
        ((⟨["out"], defaultMimeTypes⟩ : CKAN).download
          (fun _ _ => .fetchError "boom") ⟨"https://a", "f1", "text/csv"⟩ ["out"]
          ⟨[]⟩).fs).fs
      ["out", "errors.log"]) = 1 := ⟨rfl, rfl⟩

/-- C4 amended: a resource whose every attempt fails is attempted
    exactly 10 times, the download completes without raising (outcome
    Failed), and exactly one record of the form
    Couldn 't download url: cause is appended to errors.log — but with
    no trailing newline separating it from the next record. -/
theorem c4_retry_bound_and_log (c : CKAN) (net : String → Nat → Attempt)
    (r : Resource) (dp : FsPath) (fs : FS) (hu : r.url ≠ "")
    (he : fs.existsFile (destPath r dp) = false)
    (hfail : ∀ i, i < 10 → isFailAttempt (net (normalizeUrl r.url) i) = true)
    (hne : destPath r dp ≠ errorsLogPath c) :
    (c.download net r dp fs).attempts = 10 ∧
    (c.download net r dp fs).outcome = .failed ∧
    (c.download net r dp fs).fs.read (errorsLogPath c) =
      some (.text (fs.textAt (errorsLogPath c) ++
        ("Couldn\x27t download " ++ normalizeUrl r.url ++ ": " ++
          attemptErr (net (normalizeUrl r.url) 9)))) := by
  obtain ⟨h1, h2, h3⟩ := download_all_fail c net r dp fs hu he hfail hne
  exact ⟨h2, h1, h3⟩

/-- C4 witness: a concrete always-failing resource consumes the ten
    attempts and appends its single record. -/
theorem c4_retry_bound_and_log_witness :
    ((⟨["out"], defaultMimeTypes⟩ : CKAN).download (fun _ _ => .fetchError "boom")
      ⟨"https://a", "f1", "text/csv"⟩ ["out"] ⟨[]⟩).attempts = 10 ∧
    ((⟨["out"], defaultMimeTypes⟩ : CKAN).download (fun _ _ => .fetchError "boom")
      ⟨"https://a", "f1", "text/csv"⟩ ["out"] ⟨[]⟩).outcome = .failed ∧
    ((⟨["out"], defaultMimeTypes⟩ : CKAN).download (fun _ _ => .fetchError "boom")
      ⟨"https://a", "f1", "text/csv"⟩ ["out"] ⟨[]⟩).fs.read ["out", "errors.log"] =
      some (.text "Couldn\x27t download https://a: boom") :=
  c4_retry_bound_and_log ⟨["out"], defaultMimeTypes⟩ (fun _ _ => .fetchError "boom")
    ⟨"https://a", "f1", "text/csv"⟩ ["out"] ⟨[]⟩ (by decide) rfl (fun _ _ => rfl)
    (by decide)

/-- C5 counterexample: the retry handler of _request_fn_get catches
    only aiohttp.ClientResponseError; a connection fault raised by
    session.get propagates out of the coroutine after a single attempt,
    refuting the claim that any client/response error or connection
    fault is retried up to 10 times with an empty-success fallback. -/
theorem c5_connection_fault_counterexample :
    requestFnGet (fun _ => .connectionError "connection refused") =
      (.error "connection refused", 1) := rfl

/-- C5 amended: the metadata-action request retries up to 10 attempts
    on client response errors (HTTP 4xx/5xx raised by
    raise_for_status); after exhausting all retries it returns an empty
    successful response (status 200, empty payload) instead of raising.
    Any other error, such as a connection fault, is not caught and
    propagates on first occurrence. -/
theorem c5_transport_retry_behavior :
    (∀ net : Nat → ReqAttempt, (∀ i, i < 10 → isRespError (net i) = true) →
      requestFnGet net = (.ok (200, .emptyDict), 10)) ∧
    (∀ (net : Nat → ReqAttempt) (e : String), net 0 = .connectionError e →
      requestFnGet net = (.error e, 1)) := by
  constructor
  · intro net h
    have hall := requestLoop_all_resp net 10 0 (fun i hi => by simpa using h i hi)
    simpa [requestFnGet] using hall
  · intro net e h
    show requestLoop net 10 0 = (.error e, 1)
    rw [show (10 : Nat) = 9 + 1 from rfl, requestLoop, h]

/-- C5 witness: ten straight HTTP errors yield the faked empty
    success. -/
theorem c5_transport_retry_behavior_witness :
    requestFnGet (fun _ => .responseError "500") = (.ok (200, .emptyDict), 10) :=
  c5_transport_retry_behavior.1 (fun _ => .responseError "500") (fun _ _ => rfl)

/-- C6: dump_package writes the metadata.json snapshot holding the full
    package document into the target directory on every run,
    independent of the network behaviour of the downloads; and in the
    concrete three-resource scenario where only resource 2 permanently
    fails, resources 1 and 3 are still written, the failure is logged,
    and metadata.json is still present. -/
theorem c6_metadata_unconditional :
    (∀ (c : CKAN) (package_show : String → Package) (net : String → Nat → Attempt)
        (pid : String) (dp : FsPath) (fs : FS),
      (c.dump_package package_show net pid dp fs).fs.read
        (joinPath (c.dump_package package_show net pid dp fs).target "metadata.json") =
        some (.pkgDoc (c.dump_package package_show net pid dp fs).package)) ∧
    ((⟨["out"], defaultMimeTypes⟩ : CKAN).dump_package
      (fun _ => ⟨"", [⟨"https://h/a.csv", "a.csv", "text/csv"⟩,
                      ⟨"https://h/b.csv", "b.csv", "text/csv"⟩,
                      ⟨"https://h/c.csv", "c.csv", "text/csv"⟩]⟩)
      (fun url _ => if url = "https://h/a.csv" then .ok "A"
                    else if url = "https://h/c.csv" then .ok "C"
                    else .fetchError "boom")
      "pkg" ["out"] ⟨[]⟩).fs.read ["out", "a.csv"] = some (.text "A") ∧
    ((⟨["out"], defaultMimeTypes⟩ : CKAN).dump_package
      (fun _ => ⟨"", [⟨"https://h/a.csv", "a.csv", "text/csv"⟩,
                      ⟨"https://h/b.csv", "b.csv", "text/csv"⟩,
                      ⟨"https://h/c.csv", "c.csv", "text/csv"⟩]⟩)
      (fun url _ => if url = "https://h/a.csv" then .ok "A"
                    else if url = "https://h/c.csv" then .ok "C"
                    else .fetchError "boom")
      "pkg" ["out"] ⟨[]⟩).fs.read ["out", "c.csv"] = some (.text "C") ∧
    ((⟨["out"], defaultMimeTypes⟩ : CKAN).dump_package
      (fun _ => ⟨"", [⟨"https://h/a.csv", "a.csv", "text/csv"⟩,
                      ⟨"https://h/b.csv", "b.csv", "text/csv"⟩,
                      ⟨"https://h/c.csv", "c.csv", "text/csv"⟩]⟩)
      (fun url _ => if url = "https://h/a.csv" then .ok "A"
                    else if url = "https://h/c.csv" then .ok "C"
                    else .fetchError "boom")
      "pkg" ["out"] ⟨[]⟩).fs.read ["out", "metadata.json"] =
      some (.pkgDoc ⟨"", [⟨"https://h/a.csv", "a.csv", "text/csv"⟩,
                          ⟨"https://h/b.csv", "b.csv", "text/csv"⟩,
                          ⟨"https://h/c.csv", "c.csv", "text/csv"⟩]⟩) ∧
    FS.textAt ((⟨["out"], defaultMimeTypes⟩ : CKAN).dump_package
      (fun _ => ⟨"", [⟨"https://h/a.csv", "a.csv", "text/csv"⟩,
                      ⟨"https://h/b.csv", "b.csv", "text/csv"⟩,
                      ⟨"https://h/c.csv", "c.csv", "text/csv"⟩]⟩)
      (fun url _ => if url = "https://h/a.csv" then .ok "A"
                    else if url = "https://h/c.csv" then .ok "C"
                    else .fetchError "boom")
      "pkg" ["out"] ⟨[]⟩).fs ["out", "errors.log"] =
      "Couldn\x27t download https://h/b.csv: boom" := by
  refine ⟨?_, rfl, rfl, rfl, rfl⟩
  intro c package_show net pid dp fs
  rw [CKAN.dump_package]
  rcases hG : getOrFetchPkg c package_show pid fs with ⟨package, fs1, fetched⟩
  exact FS.read_write_self _ _ _

/-- C7 counterexample: every attempt dies mid-stream after writing
    PART; the bytes remain under the final destination name, and a
    second run finds the destination existing and skips the resource
    instead of retrying — refuting write-to-temporary-then-rename. -/
theorem c7_partial_file_counterexample :
    ((⟨["out"], defaultMimeTypes⟩ : CKAN).download
        (fun _ _ => .streamError "PART" "timeout")
        ⟨"https://h/data.csv", "data.csv", "text/csv"⟩ ["out", "g"] ⟨[]⟩).fs.read
      ["out", "g", "data.csv"] = some (.text "PART") ∧
    (⟨["out"], defaultMimeTypes⟩ : CKAN).download
        (fun _ _ => .streamError "PART" "timeout")
        ⟨"https://h/data.csv", "data.csv", "text/csv"⟩ ["out", "g"]
        ((⟨["out"], defaultMimeTypes⟩ : CKAN).download
          (fun _ _ => .streamError "PART" "timeout")
          ⟨"https://h/data.csv", "data.csv", "text/csv"⟩ ["out", "g"] ⟨[]⟩).fs =
      ⟨.skippedExists,
       ((⟨["out"], defaultMimeTypes⟩ : CKAN).download
         (fun _ _ => .streamError "PART" "timeout")
         ⟨"https://h/data.csv", "data.csv", "text/csv"⟩ ["out", "g"] ⟨[]⟩).fs,
       0⟩ := ⟨rfl, rfl⟩

/-- C7 amended: the downloader streams directly into the destination's
    final name; when every attempt fails and the last attempt dies
    mid-stream, its partial bytes remain on disk under the final name,
    and a later run's existence check skips the resource instead of
    retrying it. -/
theorem c7_partial_under_final_name (c : CKAN) (net net' : String → Nat → Attempt)
    (r : Resource) (dp : FsPath) (fs : FS) (w e : String) (hu : r.url ≠ "")
    (he : fs.existsFile (destPath r dp) = false)
    (hfail : ∀ i, i < 10 → isFailAttempt (net (normalizeUrl r.url) i) = true)
    (hlast : net (normalizeUrl r.url) 9 = .streamError w e)
    (hne : destPath r dp ≠ errorsLogPath c) :
    (c.download net r dp fs).fs.read (destPath r dp) = some (.text w) ∧
    c.download net' r dp ((c.download net r dp fs).fs) =
      ⟨.skippedExists, (c.download net r dp fs).fs, 0⟩ := by
  have h1 := download_partial_left_at_dest c net r dp fs w e hu he hfail hlast hne
  refine ⟨h1, download_skips_of_exists c net' r dp _ hu ?_⟩
  rw [FS.existsFile, h1]
  rfl

/-- C7 witness: the amended behaviour at a concrete mid-stream-failing
    resource. -/
theorem c7_partial_under_final_name_witness :
    ((⟨["out"], defaultMimeTypes⟩ : CKAN).download
        (fun _ _ => .streamError "HALF" "reset")
        ⟨"https://h/x.csv", "x.csv", "text/csv"⟩ ["out"] ⟨[]⟩).fs.read
      ["out", "x.csv"] = some (.text "HALF") ∧
    (⟨["out"], defaultMimeTypes⟩ : CKAN).download (fun _ _ => .ok "FULL")
        ⟨"https://h/x.csv", "x.csv", "text/csv"⟩ ["out"]
        ((⟨["out"], defaultMimeTypes⟩ : CKAN).download
          (fun _ _ => .streamError "HALF" "reset")
          ⟨"https://h/x.csv", "x.csv", "text/csv"⟩ ["out"] ⟨[]⟩).fs =
      ⟨.skippedExists,
       ((⟨["out"], defaultMimeTypes⟩ : CKAN).download
         (fun _ _ => .streamError "HALF" "reset")
         ⟨"https://h/x.csv", "x.csv", "text/csv"⟩ ["out"] ⟨[]⟩).fs,
       0⟩ :=
  c7_partial_under_final_name ⟨["out"], defaultMimeTypes⟩
    (fun _ _ => .streamError "HALF" "reset") (fun _ _ => .ok "FULL")
    ⟨"https://h/x.csv", "x.csv", "text/csv"⟩ ["out"] ⟨[]⟩ "HALF" "reset"
    (by decide) rfl (fun _ _ => rfl) rfl (by decide)

/-- C8: the destination file name is the resource name (the URL's last
    path segment when the name is empty) with every slash replaced by a
    dash, so a resource named a/b.csv lands in one file a-b.csv — and in
    general the sanitized name contains no slash, so the destination is
    a single child of the download directory, never a nested path. -/
theorem c8_name_sanitization :
    (∀ (r : Resource) (dp : FsPath), r.name = "a/b.csv" →
      resolvedName r = "a-b.csv" ∧ destPath r dp = dp ++ ["a-b.csv"]) ∧
    (∀ r : Resource, '/' ∉ (resolvedName r).data) ∧
    (∀ (r : Resource) (dp : FsPath), resolvedName r ≠ "" →
      destPath r dp = dp ++ [resolvedName r]) ∧
    resolvedName ⟨"https://host/dir/file.csv", "", "text/csv"⟩ = "file.csv" := by
  refine ⟨?_, resolvedName_no_slash, ?_, rfl⟩
  · intro r dp hname
    have h1 : resolvedName r = "a-b.csv" := by
      show pyReplace (if r.name = "" then urlTail (normalizeUrl r.url) else r.name)
        "/" "-" = "a-b.csv"
      rw [hname]
      rfl
    refine ⟨h1, ?_⟩
    show joinPath dp (resolvedName r) = dp ++ ["a-b.csv"]
    rw [h1]
    rfl
  · intro r dp hne
    show joinPath dp (resolvedName r) = dp ++ [resolvedName r]
    exact joinPath_single dp (resolvedName r) (resolvedName_no_slash r) hne

/-- C8 witness: the sanitization at the concrete slash-carrying name. -/
theorem c8_name_sanitization_witness :
    resolvedName ⟨"https://u", "a/b.csv", "text/csv"⟩ = "a-b.csv" ∧
    destPath ⟨"https://u", "a/b.csv", "text/csv"⟩ ["d"] = ["d", "a-b.csv"] :=
  c8_name_sanitization.1 ⟨"https://u", "a/b.csv", "text/csv"⟩ ["d"] rfl

theorem normalizeUrl_of_http (u : String) (h : pyStartsWith u "http://" = true) :
    ∃ t, normalizeUrl u = String.mk ("https://".data ++ t) := by
  obtain ⟨t, ht⟩ := (startsWithChars_eq_true_iff "http://".data u.data).mp h
  refine ⟨replaceAll 'h' "ttp://".data "https://".data t, ?_⟩
  rw [normalizeUrl, if_pos h, pyReplace_http_eq, ht]
  show String.mk (replaceAll 'h' "ttp://".data "https://".data
    (('h' :: "ttp://".data) ++ t)) = _
  rw [replaceAll_append_pat]

theorem pyStartsWith_https_not_http (u : String)
    (h : pyStartsWith u "https://" = true) : pyStartsWith u "http://" = false := by
  obtain ⟨t, ht⟩ := (startsWithChars_eq_true_iff "https://".data u.data).mp h
  show startsWithChars "http://".data u.data = false
  rw [ht]
  exact startsWithChars_http_of_https t

/-- C9: a URL beginning with the http scheme is rewritten so that the
    result begins with the https scheme; a URL already beginning with
    https is left untouched; and the normalization is idempotent. -/
theorem c9_url_normalization :
    (∀ u : String, pyStartsWith u "http://" = true →
      pyStartsWith (normalizeUrl u) "https://" = true) ∧
    (∀ u : String, pyStartsWith u "https://" = true → normalizeUrl u = u) ∧
    (∀ u : String, normalizeUrl (normalizeUrl u) = normalizeUrl u) := by
  have hid : ∀ v : String, pyStartsWith v "http://" = false → normalizeUrl v = v := by
    intro v hv
    rw [normalizeUrl, if_neg (by rw [hv]; exact Bool.false_ne_true)]
  have hres : ∀ u : String, pyStartsWith u "http://" = true →
      pyStartsWith (normalizeUrl u) "http://" = false := by
    intro u h
    obtain ⟨t, ht⟩ := normalizeUrl_of_http u h
    rw [ht]
    show startsWithChars "http://".data ("https://".data ++ t) = false
    exact startsWithChars_http_of_https t
  refine ⟨?_, ?_, ?_⟩
  · intro u h
    obtain ⟨t, ht⟩ := normalizeUrl_of_http u h
    rw [ht]
    show startsWithChars "https://".data ("https://".data ++ t) = true
    exact startsWithChars_append_self _ _
  · intro u h
    exact hid u (pyStartsWith_https_not_http u h)
  · intro u
    by_cases h : pyStartsWith u "http://" = true
    · exact hid _ (hres u h)
    · have hfalse : pyStartsWith u "http://" = false := by
        cases hb : pyStartsWith u "http://" with
        | false => rfl
        | true => exact absurd hb h
      rw [hid u hfalse]
      exact hid u hfalse

/-- C9 witness: normalization at concrete http and https URLs. -/
theorem c9_url_normalization_witness :
    pyStartsWith (normalizeUrl "http://x") "https://" = true ∧
    normalizeUrl "https://x" = "https://x" :=
  ⟨c9_url_normalization.1 "http://x" rfl, c9_url_normalization.2.1 "https://x" rfl⟩

/-- C10: when the cached or fetched group document has an empty name,
    dump_group resolves its target directory to the output root itself
    (pathlib drops the empty segment), so each of its packages is
    dumped with the output root as download path and the group's
    metadata.json is written directly under the output root. -/
theorem c10_empty_group_name :
    (∀ (c : CKAN) (group_show : String → Group) (package_show : String → Package)
        (net : String → Nat → Attempt) (gid : String) (fs : FS) (g : Group),
      fs.read (joinPath c.cache_path (gid ++ ".json")) = some (.grpDoc g) →
      g.name = "" →
      (c.dump_group group_show package_show net gid fs).target = c.output_path ∧
      (c.dump_group group_show package_show net gid fs).group = g ∧
      (c.dump_group group_show package_show net gid fs).fs.read
        (joinPath c.output_path "metadata.json") = some (.grpDoc g)) ∧
    (∀ (c : CKAN) (group_show : String → Group) (package_show : String → Package)
        (net : String → Nat → Attempt) (gid : String) (fs : FS),
      fs.existsFile (joinPath c.cache_path (gid ++ ".json")) = false →
      (group_show gid).name = "" →
      (c.dump_group group_show package_show net gid fs).target = c.output_path ∧
      (c.dump_group group_show package_show net gid fs).fs.read
        (joinPath c.output_path "metadata.json") =
        some (.grpDoc (group_show gid))) := by
  constructor
  · intro c group_show package_show net gid fs g hread hname
    have hex : fs.existsFile (joinPath c.cache_path (gid ++ ".json")) = true := by
      rw [FS.existsFile, hread]
      rfl
    rw [CKAN.dump_group, getOrFetchGrp_hit c group_show gid fs hex, hread]
    refine ⟨?_, rfl, ?_⟩
    · show joinPath c.output_path (FileData.asGroup (.grpDoc g)).name = c.output_path
      rw [show (FileData.asGroup (.grpDoc g)).name = g.name from rfl, hname]
      exact joinPath_empty _
    · show (FS.write _ (joinPath (joinPath c.output_path
        (FileData.asGroup (.grpDoc g)).name) "metadata.json")
        (.grpDoc (FileData.asGroup (.grpDoc g)))).read
        (joinPath c.output_path "metadata.json") = some (.grpDoc g)
      rw [show (FileData.asGroup (.grpDoc g)).name = g.name from rfl, hname,
        joinPath_empty]
      exact FS.read_write_self _ _ _
  · intro c group_show package_show net gid fs hmiss hname
    rw [CKAN.dump_group, getOrFetchGrp_miss c group_show gid fs hmiss]
    refine ⟨?_, ?_⟩
    · show joinPath c.output_path (group_show gid).name = c.output_path
      rw [hname]
      exact joinPath_empty _
    · show (FS.write _ (joinPath (joinPath c.output_path (group_show gid).name)
        "metadata.json") (.grpDoc (group_show gid))).read
        (joinPath c.output_path "metadata.json") = some (.grpDoc (group_show gid))
      rw [hname, joinPath_empty]
      exact FS.read_write_self _ _ _

/-- C10 witness: a concrete cached group with the empty name resolves
    to the output root. -/
theorem c10_empty_group_name_witness :
    ((⟨["out"], defaultMimeTypes⟩ : CKAN).dump_group (fun _ => ⟨"zzz", []⟩)
      (fun _ => ⟨"", []⟩) (fun _ _ => .fetchError "x") "g"
      ⟨[(["out", ".cache", "g.json"], .grpDoc ⟨"", []⟩)]⟩).target = ["out"] ∧
    ((⟨["out"], defaultMimeTypes⟩ : CKAN).dump_group (fun _ => ⟨"zzz", []⟩)
      (fun _ => ⟨"", []⟩) (fun _ _ => .fetchError "x") "g"
      ⟨[(["out", ".cache", "g.json"], .grpDoc ⟨"", []⟩)]⟩).group = ⟨"", []⟩ ∧
    ((⟨["out"], defaultMimeTypes⟩ : CKAN).dump_group (fun _ => ⟨"zzz", []⟩)
      (fun _ => ⟨"", []⟩) (fun _ _ => .fetchError "x") "g"
      ⟨[(["out", ".cache", "g.json"], .grpDoc ⟨"", []⟩)]⟩).fs.read
      ["out", "metadata.json"] = some (.grpDoc ⟨"", []⟩) :=
  c10_empty_group_name.1 ⟨["out"], defaultMimeTypes⟩ (fun _ => ⟨"zzz", []⟩)
    (fun _ => ⟨"", []⟩) (fun _ _ => .fetchError "x") "g"
    ⟨[(["out", ".cache", "g.json"], .grpDoc ⟨"", []⟩)]⟩ ⟨"", []⟩ rfl rfl

end ItalianFinance
